import Mathlib

/-!
# Verification of the camera context engine (cam_context)

The repository ships the declarative surface of the engine in
src/drivers/media/platform/msm/camera/cam_core/cam_context.h: the state enum
cam_context_state, the request slot struct cam_ctx_request, the context struct
cam_context with its four request queues, the dispatch tables cam_ctx_ioctl_ops /
cam_ctx_crm_ops / cam_ctx_ops, and the handler entry points
(cam_context_handle_acquire_dev .. cam_context_handle_stop_dev,
cam_context_handle_get_dev_info / link / unlink / apply_req, cam_context_init,
cam_context_deinit).  The transition and queue logic itself lives in a .c file
that is not part of the repository snapshot, so the operational definitions below
are modelled from the specification's description of each handler and of the
request pool, while the data model follows the header.

Locks (ctx_mutex, lock), the borrowed interface pointers (hw_mgr_intf,
ctx_crm_intf, crm_ctx_intf, irq_cb_intf) and the opaque ctx_priv extension are
not modelled: the embedding is sequential, each operation is one atomic step, and
the claims are about states, queues and results.  The per-slot status tag of
cam_ctx_request is represented by queue membership itself (each slot sits in
exactly one of the four queues), following the spec's design note that queue
membership is the slot's status.
-/

/-- Maximum number of request slots, CAM_CTX_REQ_MAX in the header. -/
def CAM_CTX_REQ_MAX : Nat := 20

/-- Top level context states, enum cam_context_state in the header (the
CAM_CTX_STATE_MAX sentinel is a count, not a state, and is kept separately). -/
inductive cam_context_state where
  | CAM_CTX_UNINIT
  | CAM_CTX_AVAILABLE
  | CAM_CTX_ACQUIRED
  | CAM_CTX_READY
  | CAM_CTX_ACTIVATED
deriving DecidableEq

/-- Number of context states, CAM_CTX_STATE_MAX in the header. -/
def CAM_CTX_STATE_MAX : Nat := 5

open cam_context_state

/-- A request slot, struct cam_ctx_request in the header: the request id and the
opaque device-specific payload (req_priv), both numbers in the embedding.  The
list linkage field is represented by membership in one of the queue lists and
the status field by which queue the slot sits in. -/
structure cam_ctx_request where
  request_id : Nat
  req_priv : Nat
deriving DecidableEq

/-- Error kinds of the engine, from the spec's error handling design. -/
inductive CamError where
  | InvalidState
  | PoolExhausted
  | NotFound
  | AlreadyApplied
  | ResourceExhausted
  | AlreadyInitialized
  | NotInitialized
deriving DecidableEq

/-- The context object, struct cam_context in the header: handles, the four
request queues, the pool size, the lifecycle state, and whether the per-device
dispatch table (state_machine) is bound (non-null). -/
structure cam_context where
  session_hdl : Int
  dev_hdl : Int
  link_hdl : Int
  active_req_list : List cam_ctx_request
  pending_req_list : List cam_ctx_request
  wait_req_list : List cam_ctx_request
  free_req_list : List cam_ctx_request
  req_size : Nat
  state : cam_context_state
  state_machine : Bool
deriving DecidableEq

/-- Total number of request slots currently across the four queues. -/
def totalReqs (c : cam_context) : Nat :=
  c.active_req_list.length + c.pending_req_list.length +
    c.wait_req_list.length + c.free_req_list.length

/-- Outcome of one engine operation: the resulting context (unchanged on
failure), the error if any, and whether the device-specific hook in the
dispatch table was reached. -/
structure StepResult where
  ctx : cam_context
  err : Option CamError
  dev_invoked : Bool
deriving DecidableEq

/-- Acquire command payload, struct cam_acquire_dev_cmd (declared elsewhere in
the tree).  Modelled from the spec: the handles the caller supplies and the
hardware manager's reservation outcome made an explicit input (the spec's
ResourceExhausted case: the underlying hardware manager declined). -/
structure cam_acquire_dev_cmd where
  session_hdl : Int
  dev_hdl : Int
  hw_ok : Bool
deriving DecidableEq

/-- Apply command payload, struct cam_req_mgr_apply_request (declared elsewhere
in the tree).  Modelled from the spec: apply_req(request_id, target_timing). -/
structure cam_req_mgr_apply_request where
  request_id : Nat
  target_timing : Nat
deriving DecidableEq

/-- True when some slot in the list carries the given request id (the pool's
lookup, used for duplicate-apply detection). -/
def containsId (l : List cam_ctx_request) (id : Nat) : Bool :=
  l.any (fun r => r.request_id = id)

/-- Remove the first slot carrying the given id from a queue, returning it and
the remaining queue (a queue splice preserving the order of the rest). -/
def removeById : List cam_ctx_request → Nat → Option (cam_ctx_request × List cam_ctx_request)
  | [], _ => none
  | r :: rest, id =>
    if r.request_id = id then some (r, rest)
    else
      match removeById rest id with
      | some (f, l') => some (f, r :: l')
      | none => none

/-- Force every slot of wait, pending and active back onto the free queue, in
order (the pool's flush_to_free applied to the three non-free queues, as stop
and release use it). -/
def flushQueues (c : cam_context) : cam_context :=
  { c with
    free_req_list := c.free_req_list ++ c.wait_req_list ++
      c.pending_req_list ++ c.active_req_list
    wait_req_list := []
    pending_req_list := []
    active_req_list := [] }

/-- Modelled from the spec: the body of cam_context_handle_acquire_dev (the .c
implementation is not in the snapshot).  Allowed only from Available; binds the
device dispatch table, assigns the handles, transitions to Acquired; fails
InvalidState otherwise and ResourceExhausted when the hardware manager
declines. -/
def cam_context_handle_acquire_dev (c : cam_context) (cmd : cam_acquire_dev_cmd) : StepResult :=
  if c.state = CAM_CTX_AVAILABLE then
    if cmd.hw_ok then
      ⟨{ c with
          state := CAM_CTX_ACQUIRED
          session_hdl := cmd.session_hdl
          dev_hdl := cmd.dev_hdl
          state_machine := true }, none, true⟩
    else ⟨c, some CamError.ResourceExhausted, true⟩
  else ⟨c, some CamError.InvalidState, false⟩

/-- Modelled from the spec: the body of cam_context_handle_release_dev (the .c
implementation is not in the snapshot).  Allowed from any state except
Uninitialized; flushes all non-free queues, clears handles and the dispatch
table, transitions to Available. -/
def cam_context_handle_release_dev (c : cam_context) : StepResult :=
  if c.state = CAM_CTX_UNINIT then ⟨c, some CamError.InvalidState, false⟩
  else
    ⟨{ flushQueues c with
        state := CAM_CTX_AVAILABLE
        session_hdl := -1
        dev_hdl := -1
        link_hdl := -1
        state_machine := false }, none, true⟩

/-- Modelled from the spec: the body of cam_context_handle_config_dev (the .c
implementation is not in the snapshot).  Allowed from Acquired or Ready;
transitions Acquired to Ready and is idempotent from Ready; fails InvalidState
otherwise. -/
def cam_context_handle_config_dev (c : cam_context) : StepResult :=
  if c.state = CAM_CTX_ACQUIRED ∨ c.state = CAM_CTX_READY then
    ⟨{ c with state := CAM_CTX_READY }, none, true⟩
  else ⟨c, some CamError.InvalidState, false⟩

/-- Modelled from the spec: the body of cam_context_handle_start_dev (the .c
implementation is not in the snapshot).  Allowed only from Ready; transitions
to Activated; fails InvalidState otherwise. -/
def cam_context_handle_start_dev (c : cam_context) : StepResult :=
  if c.state = CAM_CTX_READY then
    ⟨{ c with state := CAM_CTX_ACTIVATED }, none, true⟩
  else ⟨c, some CamError.InvalidState, false⟩

/-- Modelled from the spec: the body of cam_context_handle_stop_dev (the .c
implementation is not in the snapshot).  Allowed from Activated or Ready;
aborts the outstanding wait, pending and active requests by forcing them back
to free and transitions to Ready; fails InvalidState otherwise. -/
def cam_context_handle_stop_dev (c : cam_context) : StepResult :=
  if c.state = CAM_CTX_ACTIVATED ∨ c.state = CAM_CTX_READY then
    ⟨{ flushQueues c with state := CAM_CTX_READY }, none, true⟩
  else ⟨c, some CamError.InvalidState, false⟩

/-- Modelled from the spec: the body of cam_context_handle_get_dev_info (the .c
implementation is not in the snapshot).  Reports device metadata through the
bound dispatch table, so it is legal once a table is bound (Acquired, Ready or
Activated); the context is not changed. -/
def cam_context_handle_get_dev_info (c : cam_context) : StepResult :=
  if c.state = CAM_CTX_ACQUIRED ∨ c.state = CAM_CTX_READY ∨ c.state = CAM_CTX_ACTIVATED then
    ⟨c, none, true⟩
  else ⟨c, some CamError.InvalidState, false⟩

/-- Modelled from the spec: the body of cam_context_handle_link (the .c
implementation is not in the snapshot).  Establishes link_hdl, legal only from
Ready or Activated; fails InvalidState otherwise. -/
def cam_context_handle_link (c : cam_context) (hdl : Int) : StepResult :=
  if c.state = CAM_CTX_READY ∨ c.state = CAM_CTX_ACTIVATED then
    ⟨{ c with link_hdl := hdl }, none, true⟩
  else ⟨c, some CamError.InvalidState, false⟩

/-- Modelled from the spec: the body of cam_context_handle_unlink (the .c
implementation is not in the snapshot).  Tears down the group binding (clears
link_hdl), idempotent; legal whenever a dispatch table is bound. -/
def cam_context_handle_unlink (c : cam_context) : StepResult :=
  if c.state = CAM_CTX_ACQUIRED ∨ c.state = CAM_CTX_READY ∨ c.state = CAM_CTX_ACTIVATED then
    ⟨{ c with link_hdl := -1 }, none, true⟩
  else ⟨c, some CamError.InvalidState, false⟩

/-- Modelled from the spec: the body of cam_context_handle_apply_req (the .c
implementation is not in the snapshot).  Validates state = Activated (else
InvalidState), rejects an id already pending or active (AlreadyApplied), then
looks the id up in the wait queue: if present the slot is promoted wait to
pending and the device apply hook is reached, otherwise NotFound. -/
def cam_context_handle_apply_req (c : cam_context) (apply : cam_req_mgr_apply_request) : StepResult :=
  if c.state = CAM_CTX_ACTIVATED then
    if containsId c.pending_req_list apply.request_id ||
        containsId c.active_req_list apply.request_id then
      ⟨c, some CamError.AlreadyApplied, false⟩
    else
      match removeById c.wait_req_list apply.request_id with
      | some (r, rest) =>
        ⟨{ c with
            wait_req_list := rest
            pending_req_list := c.pending_req_list ++ [r] }, none, true⟩
      | none => ⟨c, some CamError.NotFound, false⟩
  else ⟨c, some CamError.InvalidState, false⟩

/-- Modelled from the spec: the pool's acquire_slot(request_id, payload).  Moves
one entry from free to wait in FIFO order of availability; fails PoolExhausted
when free is empty. -/
def cam_context_acquire_slot (c : cam_context) (id payload : Nat) : StepResult :=
  match c.free_req_list with
  | [] => ⟨c, some CamError.PoolExhausted, false⟩
  | slot :: rest =>
    ⟨{ c with
        free_req_list := rest
        wait_req_list := c.wait_req_list ++
          [{ slot with request_id := id, req_priv := payload }] }, none, false⟩

/-- Modelled from the spec: the pool's promote_to_pending(request_id).  Moves
the named entry wait to pending; NotFound when absent from wait. -/
def cam_context_promote_to_pending (c : cam_context) (id : Nat) : StepResult :=
  match removeById c.wait_req_list id with
  | some (r, rest) =>
    ⟨{ c with
        wait_req_list := rest
        pending_req_list := c.pending_req_list ++ [r] }, none, false⟩
  | none => ⟨c, some CamError.NotFound, false⟩

/-- Modelled from the spec: the pool's promote_to_active(request_id), driven by
the hardware register-update completion.  Moves pending to active; NotFound
when absent from pending. -/
def cam_context_promote_to_active (c : cam_context) (id : Nat) : StepResult :=
  match removeById c.pending_req_list id with
  | some (r, rest) =>
    ⟨{ c with
        pending_req_list := rest
        active_req_list := c.active_req_list ++ [r] }, none, false⟩
  | none => ⟨c, some CamError.NotFound, false⟩

/-- Modelled from the spec: the pool's complete(request_id), driven by the
hardware frame-done completion.  Moves active to free; NotFound when absent
from active. -/
def cam_context_complete (c : cam_context) (id : Nat) : StepResult :=
  match removeById c.active_req_list id with
  | some (r, rest) =>
    ⟨{ c with
        active_req_list := rest
        free_req_list := c.free_req_list ++ [r] }, none, false⟩
  | none => ⟨c, some CamError.NotFound, false⟩

/-- Modelled from the spec: the body of cam_context_init (the .c implementation
is not in the snapshot).  Binds the request storage as the free queue,
transitions Uninitialized to Available; fails AlreadyInitialized from any
other state. -/
def cam_context_init (c : cam_context) (req_list : List cam_ctx_request) : StepResult :=
  if c.state = CAM_CTX_UNINIT then
    ⟨{ c with
        free_req_list := req_list
        wait_req_list := []
        pending_req_list := []
        active_req_list := []
        req_size := req_list.length
        state := CAM_CTX_AVAILABLE
        session_hdl := -1
        dev_hdl := -1
        link_hdl := -1
        state_machine := false }, none, false⟩
  else ⟨c, some CamError.AlreadyInitialized, false⟩

/-- Modelled from the spec: the body of cam_context_deinit (the .c
implementation is not in the snapshot).  Teardown is allowed only from
Available; it releases the pool storage binding and transitions to
Uninitialized. -/
def cam_context_deinit (c : cam_context) : StepResult :=
  if c.state = CAM_CTX_AVAILABLE then
    ⟨{ c with
        free_req_list := []
        wait_req_list := []
        pending_req_list := []
        active_req_list := []
        req_size := 0
        state := CAM_CTX_UNINIT }, none, false⟩
  else ⟨c, some CamError.InvalidState, false⟩

/-- The operations an already initialized engine serves: the five control
commands, the four orchestrator calls, the pool slot allocation, and the two
hardware-completion events (register-update and frame-done). -/
inductive CamOp where
  | acquire_dev (cmd : cam_acquire_dev_cmd)
  | release_dev
  | config_dev
  | start_dev
  | stop_dev
  | get_dev_info
  | link (hdl : Int)
  | unlink
  | apply_req (apply : cam_req_mgr_apply_request)
  | acquire_slot (id payload : Nat)
  | hw_reg_update (id : Nat)
  | hw_done (id : Nat)
deriving DecidableEq

/-- One engine step: dispatch an operation to its handler. -/
def step (c : cam_context) (op : CamOp) : StepResult :=
  match op with
  | CamOp.acquire_dev cmd => cam_context_handle_acquire_dev c cmd
  | CamOp.release_dev => cam_context_handle_release_dev c
  | CamOp.config_dev => cam_context_handle_config_dev c
  | CamOp.start_dev => cam_context_handle_start_dev c
  | CamOp.stop_dev => cam_context_handle_stop_dev c
  | CamOp.get_dev_info => cam_context_handle_get_dev_info c
  | CamOp.link hdl => cam_context_handle_link c hdl
  | CamOp.unlink => cam_context_handle_unlink c
  | CamOp.apply_req a => cam_context_handle_apply_req c a
  | CamOp.acquire_slot id payload => cam_context_acquire_slot c id payload
  | CamOp.hw_reg_update id => cam_context_promote_to_active c id
  | CamOp.hw_done id => cam_context_complete c id

/-- Run a sequence of operations, keeping the context a failed step leaves
unchanged. -/
def run (c : cam_context) : List CamOp → cam_context
  | [] => c
  | op :: ops => run (step c op).ctx ops

/-- True when every step of the sequence succeeds. -/
def allOk (c : cam_context) : List CamOp → Bool
  | [] => true
  | op :: ops => (step c op).err = none && allOk (step c op).ctx ops

/-- The lifecycle states in which each operation is legal, as the spec's state
gates give them (pool-level operations carry no state gate of their own). -/
def legalFor (op : CamOp) (s : cam_context_state) : Bool :=
  match op with
  | CamOp.acquire_dev _ => decide (s = CAM_CTX_AVAILABLE)
  | CamOp.release_dev => decide (s ≠ CAM_CTX_UNINIT)
  | CamOp.config_dev => decide (s = CAM_CTX_ACQUIRED ∨ s = CAM_CTX_READY)
  | CamOp.start_dev => decide (s = CAM_CTX_READY)
  | CamOp.stop_dev => decide (s = CAM_CTX_ACTIVATED ∨ s = CAM_CTX_READY)
  | CamOp.get_dev_info =>
    decide (s = CAM_CTX_ACQUIRED ∨ s = CAM_CTX_READY ∨ s = CAM_CTX_ACTIVATED)
  | CamOp.link _ => decide (s = CAM_CTX_READY ∨ s = CAM_CTX_ACTIVATED)
  | CamOp.unlink =>
    decide (s = CAM_CTX_ACQUIRED ∨ s = CAM_CTX_READY ∨ s = CAM_CTX_ACTIVATED)
  | CamOp.apply_req _ => decide (s = CAM_CTX_ACTIVATED)
  | CamOp.acquire_slot _ _ => true
  | CamOp.hw_reg_update _ => true
  | CamOp.hw_done _ => true

/-- The legal state transitions of the lifecycle diagram: stay put, or take one
of the edges Available to Acquired (acquire), Acquired to Ready (config), Ready
to Activated (start), Activated to Ready (stop), or back to Available from
Acquired, Ready or Activated (release). -/
def edgeOk (s s' : cam_context_state) : Prop :=
  s' = s ∨
  (s = CAM_CTX_AVAILABLE ∧ s' = CAM_CTX_ACQUIRED) ∨
  (s = CAM_CTX_ACQUIRED ∧ s' = CAM_CTX_READY) ∨
  (s = CAM_CTX_READY ∧ s' = CAM_CTX_ACTIVATED) ∨
  (s = CAM_CTX_ACTIVATED ∧ s' = CAM_CTX_READY) ∨
  ((s = CAM_CTX_ACQUIRED ∨ s = CAM_CTX_READY ∨ s = CAM_CTX_ACTIVATED) ∧
    s' = CAM_CTX_AVAILABLE)

/-! ## Concrete contexts used to instantiate the theorems -/

/-- A fresh, never initialized context. -/
def uninitCtx : cam_context := ⟨-1, -1, -1, [], [], [], [], 0, CAM_CTX_UNINIT, false⟩

/-- The request storage handed to cam_context_init: CAM_CTX_REQ_MAX slots. -/
def initSlots : List cam_ctx_request := List.replicate CAM_CTX_REQ_MAX ⟨0, 0⟩

/-- The context right after initialization: Available, all 20 slots free. -/
def availCtx : cam_context := (cam_context_init uninitCtx initSlots).ctx

/-- Twenty acquire_slot calls with distinct request ids 0..19. -/
def acquireSlotOps : List CamOp := (List.range CAM_CTX_REQ_MAX).map (fun i => CamOp.acquire_slot i 0)

/-- An activated context holding request 7 in the active queue and request 5 in
the wait queue. -/
def activeCtx : cam_context := ⟨1, 2, 3, [⟨7, 0⟩], [], [⟨5, 0⟩], [], 2, CAM_CTX_ACTIVATED, true⟩

/-- A configured (Ready) context with all slots free. -/
def readyCtx : cam_context := ⟨1, 2, -1, [], [], [], initSlots, 20, CAM_CTX_READY, true⟩

/-! ## Helper lemmas -/

lemma removeById_length : ∀ (l : List cam_ctx_request) (id : Nat)
    (r : cam_ctx_request) (l' : List cam_ctx_request),
    removeById l id = some (r, l') → l'.length + 1 = l.length := by
  intro l
  induction l with
  | nil => intro id r l' h; simp [removeById] at h
  | cons a t ih =>
    intro id r l' h
    by_cases ha : a.request_id = id
    · simp [removeById, ha] at h
      obtain ⟨h1, h2⟩ := h
      simp [← h2]
    · simp only [removeById, ha, if_neg, ite_false] at h
      cases ht : removeById t id with
      | none => rw [ht] at h; simp at h
      | some p =>
        obtain ⟨f, l2⟩ := p
        rw [ht] at h
        simp at h
        obtain ⟨h1, h2⟩ := h
        have hl := ih id f l2 ht
        subst h2
        simp
        omega

lemma removeById_id : ∀ (l : List cam_ctx_request) (id : Nat)
    (r : cam_ctx_request) (l' : List cam_ctx_request),
    removeById l id = some (r, l') → r.request_id = id := by
  intro l
  induction l with
  | nil => intro id r l' h; simp [removeById] at h
  | cons a t ih =>
    intro id r l' h
    by_cases ha : a.request_id = id
    · simp [removeById, ha] at h
      obtain ⟨h1, h2⟩ := h
      rw [← h1, ha]
    · simp only [removeById, ha, if_neg, ite_false] at h
      cases ht : removeById t id with
      | none => rw [ht] at h; simp at h
      | some p =>
        obtain ⟨f, l2⟩ := p
        rw [ht] at h
        simp at h
        obtain ⟨h1, h2⟩ := h
        rw [← h1]
        exact ih id f l2 ht

lemma removeById_mem : ∀ (l : List cam_ctx_request) (id : Nat)
    (r : cam_ctx_request) (l' : List cam_ctx_request),
    removeById l id = some (r, l') → r ∈ l := by
  intro l
  induction l with
  | nil => intro id r l' h; simp [removeById] at h
  | cons a t ih =>
    intro id r l' h
    by_cases ha : a.request_id = id
    · simp [removeById, ha] at h
      obtain ⟨h1, h2⟩ := h
      simp [← h1]
    · simp only [removeById, ha, if_neg, ite_false] at h
      cases ht : removeById t id with
      | none => rw [ht] at h; simp at h
      | some p =>
        obtain ⟨f, l2⟩ := p
        rw [ht] at h
        simp at h
        obtain ⟨h1, h2⟩ := h
        rw [← h1]
        exact List.mem_cons_of_mem a (ih id f l2 ht)

lemma removeById_eq_none (l : List cam_ctx_request) (id : Nat) :
    removeById l id = none ↔ containsId l id = false := by
  induction l with
  | nil => simp [removeById, containsId]
  | cons a t ih =>
    by_cases ha : a.request_id = id
    · simp [removeById, ha, containsId]
    · simp only [removeById, ha, if_neg, ite_false]
      cases ht : removeById t id with
      | none =>
        simp [containsId, ha]
        rw [ht] at ih
        simpa [containsId] using ih.mp rfl
      | some p =>
        obtain ⟨f, l2⟩ := p
        simp [containsId, ha]
        exact ⟨f, removeById_mem t id f l2 ht, removeById_id t id f l2 ht⟩

lemma flushQueues_total (c : cam_context) : totalReqs (flushQueues c) = totalReqs c := by
  simp [totalReqs, flushQueues]
  omega

lemma flushQueues_req_size (c : cam_context) : (flushQueues c).req_size = c.req_size := by
  simp [flushQueues]

lemma step_total (c : cam_context) (op : CamOp) :
    totalReqs (step c op).ctx = totalReqs c ∧ (step c op).ctx.req_size = c.req_size := by
  cases op with
  | acquire_dev cmd =>
    simp only [step, cam_context_handle_acquire_dev]
    split
    · split
      · simp [totalReqs]
      · simp
    · simp
  | release_dev =>
    simp only [step, cam_context_handle_release_dev]
    split
    · simp
    · constructor
      · simp only [StepResult.ctx]
        rw [show totalReqs c = totalReqs (flushQueues c) from (flushQueues_total c).symm]
        simp [totalReqs, flushQueues]
      · simp [flushQueues]
  | config_dev =>
    simp only [step, cam_context_handle_config_dev]
    split <;> simp [totalReqs]
  | start_dev =>
    simp only [step, cam_context_handle_start_dev]
    split <;> simp [totalReqs]
  | stop_dev =>
    simp only [step, cam_context_handle_stop_dev]
    split
    · constructor
      · simp only [StepResult.ctx]
        rw [show totalReqs c = totalReqs (flushQueues c) from (flushQueues_total c).symm]
        simp [totalReqs, flushQueues]
      · simp [flushQueues]
    · simp
  | get_dev_info =>
    simp only [step, cam_context_handle_get_dev_info]
    split <;> simp
  | link hdl =>
    simp only [step, cam_context_handle_link]
    split <;> simp [totalReqs]
  | unlink =>
    simp only [step, cam_context_handle_unlink]
    split <;> simp [totalReqs]
  | apply_req a =>
    simp only [step, cam_context_handle_apply_req]
    split
    · split
      · simp
      · cases h : removeById c.wait_req_list a.request_id with
        | none => simp [h]
        | some p =>
          obtain ⟨r, rest⟩ := p
          have hl := removeById_length c.wait_req_list a.request_id r rest h
          simp [h, totalReqs]
          omega
    · simp
  | acquire_slot id payload =>
    simp only [step, cam_context_acquire_slot]
    cases h : c.free_req_list with
    | nil => simp
    | cons slot rest => simp [totalReqs, h]; omega
  | hw_reg_update id =>
    simp only [step, cam_context_promote_to_active]
    cases h : removeById c.pending_req_list id with
    | none => simp
    | some p =>
      obtain ⟨r, rest⟩ := p
      have hl := removeById_length c.pending_req_list id r rest h
      simp [totalReqs]
      omega
  | hw_done id =>
    simp only [step, cam_context_complete]
    cases h : removeById c.active_req_list id with
    | none => simp
    | some p =>
      obtain ⟨r, rest⟩ := p
      have hl := removeById_length c.active_req_list id r rest h
      simp [totalReqs]
      omega

lemma illegal_no_effect (c : cam_context) (op : CamOp)
    (h : legalFor op c.state = false) :
    step c op = ⟨c, some CamError.InvalidState, false⟩ := by
  cases op with
  | acquire_dev cmd =>
    simp [legalFor] at h
    simp [step, cam_context_handle_acquire_dev, h]
  | release_dev =>
    simp [legalFor] at h
    simp [step, cam_context_handle_release_dev, h]
  | config_dev =>
    simp [legalFor] at h
    simp [step, cam_context_handle_config_dev, h]
  | start_dev =>
    simp [legalFor] at h
    simp [step, cam_context_handle_start_dev, h]
  | stop_dev =>
    simp [legalFor] at h
    simp [step, cam_context_handle_stop_dev, h]
  | get_dev_info =>
    simp [legalFor] at h
    simp [step, cam_context_handle_get_dev_info, h]
  | link hdl =>
    simp [legalFor] at h
    simp [step, cam_context_handle_link, h]
  | unlink =>
    simp [legalFor] at h
    simp [step, cam_context_handle_unlink, h]
  | apply_req a =>
    simp [legalFor] at h
    simp [step, cam_context_handle_apply_req, h]
  | acquire_slot id payload => simp [legalFor] at h
  | hw_reg_update id => simp [legalFor] at h
  | hw_done id => simp [legalFor] at h

lemma step_edge (c : cam_context) (op : CamOp) :
    edgeOk c.state (step c op).ctx.state := by
  cases op with
  | acquire_dev cmd =>
    simp only [step, cam_context_handle_acquire_dev]
    split
    · split
      · simp_all [edgeOk]
      · simp [edgeOk]
    · simp [edgeOk]
  | release_dev =>
    simp only [step, cam_context_handle_release_dev]
    split
    · simp [edgeOk]
    · rcases hs : c.state <;> simp_all [edgeOk, flushQueues]
  | config_dev =>
    simp only [step, cam_context_handle_config_dev]
    split
    · rcases hs : c.state <;> simp_all [edgeOk]
    · simp [edgeOk]
  | start_dev =>
    simp only [step, cam_context_handle_start_dev]
    split
    · simp_all [edgeOk]
    · simp [edgeOk]
  | stop_dev =>
    simp only [step, cam_context_handle_stop_dev]
    split
    · rcases hs : c.state <;> simp_all [edgeOk, flushQueues]
    · simp [edgeOk]
  | get_dev_info =>
    simp only [step, cam_context_handle_get_dev_info]
    split <;> simp [edgeOk]
  | link hdl =>
    simp only [step, cam_context_handle_link]
    split <;> simp [edgeOk]
  | unlink =>
    simp only [step, cam_context_handle_unlink]
    split <;> simp [edgeOk]
  | apply_req a =>
    simp only [step, cam_context_handle_apply_req]
    split
    · split
      · simp [edgeOk]
      · cases h : removeById c.wait_req_list a.request_id with
        | none => simp [h, edgeOk]
        | some p =>
          obtain ⟨r, rest⟩ := p
          simp [h, edgeOk]
    · simp [edgeOk]
  | acquire_slot id payload =>
    simp only [step, cam_context_acquire_slot]
    cases h : c.free_req_list with
    | nil => simp [edgeOk]
    | cons slot rest => simp [edgeOk]
  | hw_reg_update id =>
    simp only [step, cam_context_promote_to_active]
    cases h : removeById c.pending_req_list id with
    | none => simp [edgeOk]
    | some p =>
      obtain ⟨r, rest⟩ := p
      simp [edgeOk]
  | hw_done id =>
    simp only [step, cam_context_complete]
    cases h : removeById c.active_req_list id with
    | none => simp [edgeOk]
    | some p =>
      obtain ⟨r, rest⟩ := p
      simp [edgeOk]

lemma edgeOk_ne_uninit (s s' : cam_context_state) (he : edgeOk s s')
    (hs : s ≠ CAM_CTX_UNINIT) : s' ≠ CAM_CTX_UNINIT := by
  rcases he with h | h | h | h | h | h
  · rw [h]; exact hs
  · rw [h.2]; intro hc; cases hc
  · rw [h.2]; intro hc; cases hc
  · rw [h.2]; intro hc; cases hc
  · rw [h.2]; intro hc; cases hc
  · rw [h.2]; intro hc; cases hc

lemma run_total (ops : List CamOp) : ∀ c : cam_context,
    totalReqs (run c ops) = totalReqs c ∧ (run c ops).req_size = c.req_size := by
  induction ops with
  | nil => intro c; simp [run]
  | cons op ops ih =>
    intro c
    obtain ⟨h1, h2⟩ := step_total c op
    obtain ⟨h3, h4⟩ := ih (step c op).ctx
    simp only [run]
    omega

lemma run_state_ne_uninit (ops : List CamOp) : ∀ c : cam_context,
    c.state ≠ CAM_CTX_UNINIT → (run c ops).state ≠ CAM_CTX_UNINIT := by
  induction ops with
  | nil => intro c h; simpa [run] using h
  | cons op ops ih =>
    intro c h
    simp only [run]
    exact ih (step c op).ctx (edgeOk_ne_uninit _ _ (step_edge c op) h)

/-! ## Claims -/

/-- C1: for every context and every sequence of engine operations, the total
number of requests across the four queues (free, wait, pending, active) always
equals the capacity fixed at initialization: cam_context_init establishes
totalReqs = req_size, and every operation preserves both the total and the
recorded capacity, so slots are only recycled between queues, never created or
destroyed. -/
theorem pool_conservation_invariant (c : cam_context) (l : List cam_ctx_request)
    (ops : List CamOp) :
    (c.state = CAM_CTX_UNINIT →
      totalReqs (cam_context_init c l).ctx = (cam_context_init c l).ctx.req_size) ∧
    (totalReqs c = c.req_size →
      totalReqs (run c ops) = c.req_size ∧ (run c ops).req_size = c.req_size) := by
  constructor
  · intro h
    simp [cam_context_init, h, totalReqs]
  · intro hinv
    obtain ⟨h1, h2⟩ := run_total ops c
    exact ⟨h1.trans hinv, h2⟩

/-- Witness for C1 at the concrete initialized context and the twenty
acquire_slot operations. -/
theorem pool_conservation_invariant_witness :
    totalReqs (run availCtx acquireSlotOps) = 20 ∧
      (run availCtx acquireSlotOps).req_size = 20 := by
  obtain ⟨h1, h2⟩ :=
    (pool_conservation_invariant availCtx initSlots acquireSlotOps).2 (by decide)
  have hc : availCtx.req_size = 20 := by decide
  exact ⟨hc ▸ h1, hc ▸ h2⟩

/-- C2: the lifecycle follows exactly the diagram Uninitialized to Available
(init), Available to Acquired (acquire), Acquired to Ready (config), Ready to
Activated (start), Activated or Ready to Ready (stop), Acquired/Ready/Activated
back to Available (release), Available to Uninitialized (teardown); every step
either keeps the state or takes one of these edges, and start called before
config (from Acquired) fails with InvalidState. -/
theorem lifecycle_state_diagram :
    (∀ (c : cam_context) (op : CamOp), edgeOk c.state (step c op).ctx.state) ∧
    (∀ (c : cam_context) (l : List cam_ctx_request), c.state = CAM_CTX_UNINIT →
      (cam_context_init c l).err = none ∧
        (cam_context_init c l).ctx.state = CAM_CTX_AVAILABLE) ∧
    (∀ (c : cam_context) (cmd : cam_acquire_dev_cmd),
      c.state = CAM_CTX_AVAILABLE → cmd.hw_ok = true →
      (step c (CamOp.acquire_dev cmd)).err = none ∧
        (step c (CamOp.acquire_dev cmd)).ctx.state = CAM_CTX_ACQUIRED) ∧
    (∀ c : cam_context, c.state = CAM_CTX_ACQUIRED →
      (step c CamOp.config_dev).err = none ∧
        (step c CamOp.config_dev).ctx.state = CAM_CTX_READY) ∧
    (∀ c : cam_context, c.state = CAM_CTX_READY →
      (step c CamOp.start_dev).err = none ∧
        (step c CamOp.start_dev).ctx.state = CAM_CTX_ACTIVATED) ∧
    (∀ c : cam_context, c.state = CAM_CTX_ACTIVATED ∨ c.state = CAM_CTX_READY →
      (step c CamOp.stop_dev).err = none ∧
        (step c CamOp.stop_dev).ctx.state = CAM_CTX_READY) ∧
    (∀ c : cam_context,
      c.state = CAM_CTX_ACQUIRED ∨ c.state = CAM_CTX_READY ∨ c.state = CAM_CTX_ACTIVATED →
      (step c CamOp.release_dev).err = none ∧
        (step c CamOp.release_dev).ctx.state = CAM_CTX_AVAILABLE) ∧
    (∀ c : cam_context, c.state = CAM_CTX_AVAILABLE →
      (cam_context_deinit c).err = none ∧
        (cam_context_deinit c).ctx.state = CAM_CTX_UNINIT) ∧
    (∀ c : cam_context, c.state = CAM_CTX_ACQUIRED →
      (step c CamOp.start_dev).err = some CamError.InvalidState ∧
        (step c CamOp.start_dev).ctx = c) := by
  refine ⟨step_edge, ?_, ?_, ?_, ?_, ?_, ?_, ?_, ?_⟩
  · intro c l h
    simp [cam_context_init, h]
  · intro c cmd h hw
    simp [step, cam_context_handle_acquire_dev, h, hw]
  · intro c h
    simp [step, cam_context_handle_config_dev, h]
  · intro c h
    simp [step, cam_context_handle_start_dev, h]
  · intro c h
    rcases h with h | h <;> simp [step, cam_context_handle_stop_dev, h]
  · intro c h
    rcases h with h | h | h <;> simp [step, cam_context_handle_release_dev, h]
  · intro c h
    simp [cam_context_deinit, h]
  · intro c h
    simp [step, cam_context_handle_start_dev, h]

/-- Witness for C2: acquiring from the concrete Available context succeeds and
lands in Acquired. -/
theorem lifecycle_state_diagram_witness :
    (step availCtx (CamOp.acquire_dev ⟨1, 2, true⟩)).err = none ∧
      (step availCtx (CamOp.acquire_dev ⟨1, 2, true⟩)).ctx.state = CAM_CTX_ACQUIRED :=
  lifecycle_state_diagram.2.2.1 availCtx ⟨1, 2, true⟩ (by decide) rfl

/-- C3: any operation invoked in a lifecycle state where it is not legal
returns InvalidState, does not reach the device-specific handler of the
dispatch table, and leaves the whole context (state field and all four request
queues) unchanged. -/
theorem invalid_state_fail_fast (c : cam_context) (op : CamOp)
    (h : legalFor op c.state = false) :
    (step c op).err = some CamError.InvalidState ∧
      (step c op).dev_invoked = false ∧ (step c op).ctx = c := by
  rw [illegal_no_effect c op h]
  exact ⟨rfl, rfl, rfl⟩

/-- Witness for C3: start_dev from the Available context is illegal and has no
effect. -/
theorem invalid_state_fail_fast_witness :
    (step availCtx CamOp.start_dev).err = some CamError.InvalidState ∧
      (step availCtx CamOp.start_dev).dev_invoked = false ∧
      (step availCtx CamOp.start_dev).ctx = availCtx :=
  invalid_state_fail_fast availCtx CamOp.start_dev (by decide)

/-- C4: apply_req is legal only in Activated (InvalidState otherwise, context
unchanged); an id already pending or active is rejected with AlreadyApplied; an
id absent from wait (and from pending/active) fails with NotFound; and on
success the slot carrying the id is moved from the wait queue to the tail of
the pending queue. -/
theorem apply_req_contract (c : cam_context) (a : cam_req_mgr_apply_request) :
    (c.state ≠ CAM_CTX_ACTIVATED →
      (step c (CamOp.apply_req a)).err = some CamError.InvalidState ∧
        (step c (CamOp.apply_req a)).ctx = c) ∧
    (c.state = CAM_CTX_ACTIVATED →
      (containsId c.pending_req_list a.request_id = true ∨
        containsId c.active_req_list a.request_id = true) →
      (step c (CamOp.apply_req a)).err = some CamError.AlreadyApplied ∧
        (step c (CamOp.apply_req a)).ctx = c) ∧
    (c.state = CAM_CTX_ACTIVATED →
      containsId c.pending_req_list a.request_id = false →
      containsId c.active_req_list a.request_id = false →
      containsId c.wait_req_list a.request_id = false →
      (step c (CamOp.apply_req a)).err = some CamError.NotFound ∧
        (step c (CamOp.apply_req a)).ctx = c) ∧
    (c.state = CAM_CTX_ACTIVATED →
      containsId c.pending_req_list a.request_id = false →
      containsId c.active_req_list a.request_id = false →
      containsId c.wait_req_list a.request_id = true →
      ∃ r rest, removeById c.wait_req_list a.request_id = some (r, rest) ∧
        r.request_id = a.request_id ∧
        (step c (CamOp.apply_req a)).err = none ∧
        (step c (CamOp.apply_req a)).ctx =
          { c with wait_req_list := rest, pending_req_list := c.pending_req_list ++ [r] }) := by
  refine ⟨?_, ?_, ?_, ?_⟩
  · intro h
    simp [step, cam_context_handle_apply_req, h]
  · intro hs hdup
    have hb : (containsId c.pending_req_list a.request_id ||
        containsId c.active_req_list a.request_id) = true := by
      rcases hdup with h | h <;> simp [h]
    simp [step, cam_context_handle_apply_req, hs, hb]
  · intro hs hp ha hw
    have hnone : removeById c.wait_req_list a.request_id = none :=
      (removeById_eq_none _ _).mpr hw
    simp [step, cam_context_handle_apply_req, hs, hp, ha, hnone]
  · intro hs hp ha hw
    cases hr : removeById c.wait_req_list a.request_id with
    | none =>
      have hf := (removeById_eq_none c.wait_req_list a.request_id).mp hr
      rw [hf] at hw
      cases hw
    | some q =>
      obtain ⟨r, rest⟩ := q
      refine ⟨r, rest, rfl, removeById_id _ _ _ _ hr, ?_, ?_⟩
      · simp [step, cam_context_handle_apply_req, hs, hp, ha, hr]
      · simp [step, cam_context_handle_apply_req, hs, hp, ha, hr]

/-- Witness for C4 at the concrete Activated context: applying the waiting id 5
succeeds, re-applying the active id 7 is AlreadyApplied, and an unknown id 9 is
NotFound. -/
theorem apply_req_contract_witness :
    (step activeCtx (CamOp.apply_req ⟨5, 0⟩)).err = none ∧
      (step activeCtx (CamOp.apply_req ⟨7, 0⟩)).err = some CamError.AlreadyApplied ∧
      (step activeCtx (CamOp.apply_req ⟨9, 0⟩)).err = some CamError.NotFound := by
  refine ⟨?_, ?_, ?_⟩
  · obtain ⟨r, rest, h1, h2, h3, h4⟩ :=
      (apply_req_contract activeCtx ⟨5, 0⟩).2.2.2 rfl (by decide) (by decide) (by decide)
    exact h3
  · exact ((apply_req_contract activeCtx ⟨7, 0⟩).2.1 rfl (Or.inr (by decide))).1
  · exact ((apply_req_contract activeCtx ⟨9, 0⟩).2.2.1 rfl (by decide) (by decide) (by decide)).1

/-- C5: acquire_slot moves exactly the head of the free queue to the tail of
the wait queue (FIFO order of availability) and fails with PoolExhausted
exactly when free is empty; with capacity 20, twenty acquires with distinct ids
all succeed and the twenty-first fails with PoolExhausted; and right after any
successful complete the next acquire_slot succeeds again. -/
theorem acquire_slot_contract :
    (∀ (c : cam_context) (id p : Nat), c.free_req_list = [] →
      (step c (CamOp.acquire_slot id p)).err = some CamError.PoolExhausted ∧
        (step c (CamOp.acquire_slot id p)).ctx = c) ∧
    (∀ (c : cam_context) (id p : Nat) (slot : cam_ctx_request) (rest : List cam_ctx_request),
      c.free_req_list = slot :: rest →
      (step c (CamOp.acquire_slot id p)).err = none ∧
        (step c (CamOp.acquire_slot id p)).ctx =
          { c with free_req_list := rest, wait_req_list := c.wait_req_list ++ [⟨id, p⟩] }) ∧
    (allOk availCtx acquireSlotOps = true ∧
      (step (run availCtx acquireSlotOps) (CamOp.acquire_slot 20 0)).err =
        some CamError.PoolExhausted) ∧
    (∀ (c : cam_context) (id : Nat), (step c (CamOp.hw_done id)).err = none →
      ∀ id2 p2 : Nat,
        (step (step c (CamOp.hw_done id)).ctx (CamOp.acquire_slot id2 p2)).err = none) := by
  refine ⟨?_, ?_, ⟨by decide, by decide⟩, ?_⟩
  · intro c id p h
    simp [step, cam_context_acquire_slot, h]
  · intro c id p slot rest h
    simp [step, cam_context_acquire_slot, h]
  · intro c id h id2 p2
    simp only [step, cam_context_complete] at h ⊢
    cases hr : removeById c.active_req_list id with
    | none => rw [hr] at h; simp at h
    | some q =>
      obtain ⟨r, rest⟩ := q
      cases hf : c.free_req_list with
      | nil => simp [cam_context_acquire_slot, hf]
      | cons b t => simp [cam_context_acquire_slot, hf]

/-- Witness for C5: the very first acquire_slot on the freshly initialized
context succeeds. -/
theorem acquire_slot_contract_witness :
    (step availCtx (CamOp.acquire_slot 0 0)).err = none := by
  obtain ⟨h1, h2⟩ :=
    acquire_slot_contract.2.1 availCtx 0 0 ⟨0, 0⟩ (List.replicate 19 ⟨0, 0⟩) (by decide)
  exact h1

/-- C6: stop is allowed exactly from Activated or Ready; on success it forces
every outstanding request of the wait, pending and active queues back onto the
free queue (in particular the active and pending queues are flushed to free)
and transitions to Ready; from Acquired, Available or Uninitialized it fails
with InvalidState and changes nothing. -/
theorem stop_dev_contract (c : cam_context) :
    (c.state = CAM_CTX_ACTIVATED ∨ c.state = CAM_CTX_READY →
      (step c CamOp.stop_dev).err = none ∧
        (step c CamOp.stop_dev).ctx.state = CAM_CTX_READY ∧
        (step c CamOp.stop_dev).ctx.active_req_list = [] ∧
        (step c CamOp.stop_dev).ctx.pending_req_list = [] ∧
        (step c CamOp.stop_dev).ctx.wait_req_list = [] ∧
        (step c CamOp.stop_dev).ctx.free_req_list =
          c.free_req_list ++ c.wait_req_list ++ c.pending_req_list ++ c.active_req_list) ∧
    (c.state = CAM_CTX_ACQUIRED ∨ c.state = CAM_CTX_AVAILABLE ∨ c.state = CAM_CTX_UNINIT →
      (step c CamOp.stop_dev).err = some CamError.InvalidState ∧
        (step c CamOp.stop_dev).ctx = c) := by
  constructor
  · intro h
    rcases h with h | h <;> simp [step, cam_context_handle_stop_dev, flushQueues, h]
  · intro h
    rcases h with h | h | h <;> simp [step, cam_context_handle_stop_dev, h]

/-- Witness for C6: stopping the concrete Activated context succeeds, lands in
Ready, and both its requests end up free. -/
theorem stop_dev_contract_witness :
    (step activeCtx CamOp.stop_dev).err = none ∧
      (step activeCtx CamOp.stop_dev).ctx.state = CAM_CTX_READY ∧
      (step activeCtx CamOp.stop_dev).ctx.free_req_list = [⟨5, 0⟩, ⟨7, 0⟩] := by
  obtain ⟨h1, h2, h3, h4, h5, h6⟩ := (stop_dev_contract activeCtx).1 (Or.inl rfl)
  exact ⟨h1, h2, by rw [h6]; decide⟩

lemma release_dev_spec (c : cam_context) (h : c.state ≠ CAM_CTX_UNINIT) :
    (step c CamOp.release_dev).err = none ∧
    (step c CamOp.release_dev).ctx.state = CAM_CTX_AVAILABLE ∧
    (step c CamOp.release_dev).ctx.wait_req_list = [] ∧
    (step c CamOp.release_dev).ctx.pending_req_list = [] ∧
    (step c CamOp.release_dev).ctx.active_req_list = [] ∧
    (step c CamOp.release_dev).ctx.free_req_list.length = totalReqs c ∧
    (step c CamOp.release_dev).ctx.state_machine = false ∧
    (step c CamOp.release_dev).ctx.session_hdl = -1 ∧
    (step c CamOp.release_dev).ctx.dev_hdl = -1 ∧
    (step c CamOp.release_dev).ctx.link_hdl = -1 := by
  simp [step, cam_context_handle_release_dev, h, flushQueues, totalReqs]
  omega

/-- C7: release is legal from every state except Uninitialized (and fails with
InvalidState exactly there); it empties wait, pending and active, returns every
slot to the free queue, clears the handles and the dispatch table, and lands in
Available; hence every sequence that begins with a successful acquire and ends
with release brings the free queue back to full capacity with the other three
queues empty. -/
theorem release_restores_pool :
    (∀ c : cam_context, c.state ≠ CAM_CTX_UNINIT →
      (step c CamOp.release_dev).err = none ∧
      (step c CamOp.release_dev).ctx.state = CAM_CTX_AVAILABLE ∧
      (step c CamOp.release_dev).ctx.wait_req_list = [] ∧
      (step c CamOp.release_dev).ctx.pending_req_list = [] ∧
      (step c CamOp.release_dev).ctx.active_req_list = [] ∧
      (step c CamOp.release_dev).ctx.free_req_list.length = totalReqs c ∧
      (step c CamOp.release_dev).ctx.state_machine = false ∧
      (step c CamOp.release_dev).ctx.session_hdl = -1 ∧
      (step c CamOp.release_dev).ctx.dev_hdl = -1 ∧
      (step c CamOp.release_dev).ctx.link_hdl = -1) ∧
    (∀ c : cam_context,
      (step c CamOp.release_dev).err = some CamError.InvalidState ↔
        c.state = CAM_CTX_UNINIT) ∧
    (∀ (c : cam_context) (cmd : cam_acquire_dev_cmd) (ops : List CamOp),
      c.state = CAM_CTX_AVAILABLE → cmd.hw_ok = true → totalReqs c = c.req_size →
      (step (run (step c (CamOp.acquire_dev cmd)).ctx ops) CamOp.release_dev).err = none ∧
      (step (run (step c (CamOp.acquire_dev cmd)).ctx ops) CamOp.release_dev).ctx.state =
        CAM_CTX_AVAILABLE ∧
      (step (run (step c (CamOp.acquire_dev cmd)).ctx ops)
          CamOp.release_dev).ctx.free_req_list.length = c.req_size ∧
      (step (run (step c (CamOp.acquire_dev cmd)).ctx ops)
          CamOp.release_dev).ctx.wait_req_list = [] ∧
      (step (run (step c (CamOp.acquire_dev cmd)).ctx ops)
          CamOp.release_dev).ctx.pending_req_list = [] ∧
      (step (run (step c (CamOp.acquire_dev cmd)).ctx ops)
          CamOp.release_dev).ctx.active_req_list = []) := by
  refine ⟨release_dev_spec, ?_, ?_⟩
  · intro c
    constructor
    · intro he
      by_cases hu : c.state = CAM_CTX_UNINIT
      · exact hu
      · have h0 := (release_dev_spec c hu).1
        rw [h0] at he
        cases he
    · intro hu
      simp [step, cam_context_handle_release_dev, hu]
  · intro c cmd ops hs hw hinv
    have h1 : (step c (CamOp.acquire_dev cmd)).ctx.state = CAM_CTX_ACQUIRED := by
      simp [step, cam_context_handle_acquire_dev, hs, hw]
    have hne1 : (step c (CamOp.acquire_dev cmd)).ctx.state ≠ CAM_CTX_UNINIT := by
      rw [h1]
      intro hh
      cases hh
    have hne2 := run_state_ne_uninit ops _ hne1
    obtain ⟨e1, e2, e3, e4, e5, e6, _⟩ := release_dev_spec _ hne2
    obtain ⟨t1, t2⟩ := step_total c (CamOp.acquire_dev cmd)
    obtain ⟨t3, t4⟩ := run_total ops (step c (CamOp.acquire_dev cmd)).ctx
    refine ⟨e1, e2, ?_, e3, e4, e5⟩
    rw [e6, t3, t1, hinv]

/-- Witness for C7: acquire on the fresh context, one config, then release; the
free queue is back to the full 20 slots and the rest are empty. -/
theorem release_restores_pool_witness :
    (step (run (step availCtx (CamOp.acquire_dev ⟨1, 2, true⟩)).ctx [CamOp.config_dev])
        CamOp.release_dev).err = none ∧
    (step (run (step availCtx (CamOp.acquire_dev ⟨1, 2, true⟩)).ctx [CamOp.config_dev])
        CamOp.release_dev).ctx.free_req_list.length = availCtx.req_size ∧
    (step (run (step availCtx (CamOp.acquire_dev ⟨1, 2, true⟩)).ctx [CamOp.config_dev])
        CamOp.release_dev).ctx.wait_req_list = [] := by
  obtain ⟨h1, h2, h3, h4, h5, h6⟩ :=
    release_restores_pool.2.2 availCtx ⟨1, 2, true⟩ [CamOp.config_dev] (by decide) rfl (by decide)
  exact ⟨h1, h3, h4⟩

/-- C8: config is allowed exactly from Acquired or Ready: from Acquired it
succeeds and moves to Ready, from Ready it succeeds and leaves the context
unchanged (idempotent, never regressing to Acquired), and from any other state
it fails with InvalidState and changes nothing. -/
theorem config_dev_idempotent (c : cam_context) :
    (c.state = CAM_CTX_ACQUIRED →
      (step c CamOp.config_dev).err = none ∧
        (step c CamOp.config_dev).ctx.state = CAM_CTX_READY) ∧
    (c.state = CAM_CTX_READY →
      (step c CamOp.config_dev).err = none ∧ (step c CamOp.config_dev).ctx = c) ∧
    (c.state ≠ CAM_CTX_ACQUIRED → c.state ≠ CAM_CTX_READY →
      (step c CamOp.config_dev).err = some CamError.InvalidState ∧
        (step c CamOp.config_dev).ctx = c) := by
  refine ⟨?_, ?_, ?_⟩
  · intro h
    simp [step, cam_context_handle_config_dev, h]
  · intro h
    constructor
    · simp [step, cam_context_handle_config_dev, h]
    · simp only [step, cam_context_handle_config_dev, h]
      cases c
      simp_all
  · intro h1 h2
    simp [step, cam_context_handle_config_dev, h1, h2]

/-- Witness for C8: config on the concrete Ready context succeeds and changes
nothing. -/
theorem config_dev_idempotent_witness :
    (step readyCtx CamOp.config_dev).err = none ∧
      (step readyCtx CamOp.config_dev).ctx = readyCtx :=
  (config_dev_idempotent readyCtx).2.1 rfl

/-- C9: with one request in the active queue of an Activated context, stop
moves it to the free queue and lands in Ready, and a subsequent hardware
frame-done completion for that now-free id reports NotFound while moving
nothing (the context, and in particular the free queue, is unchanged): the
request is never freed twice. -/
theorem no_double_free_after_stop (c : cam_context) (r : cam_ctx_request)
    (hs : c.state = CAM_CTX_ACTIVATED) (ha : c.active_req_list = [r]) :
    (step c CamOp.stop_dev).err = none ∧
    (step c CamOp.stop_dev).ctx.state = CAM_CTX_READY ∧
    r ∈ (step c CamOp.stop_dev).ctx.free_req_list ∧
    (step (step c CamOp.stop_dev).ctx (CamOp.hw_done r.request_id)).err =
      some CamError.NotFound ∧
    (step (step c CamOp.stop_dev).ctx (CamOp.hw_done r.request_id)).ctx =
      (step c CamOp.stop_dev).ctx := by
  have hctx : step c CamOp.stop_dev =
      ⟨{ flushQueues c with state := CAM_CTX_READY }, none, true⟩ := by
    simp [step, cam_context_handle_stop_dev, hs]
  rw [hctx]
  refine ⟨rfl, rfl, ?_, ?_, ?_⟩
  · simp [flushQueues, ha]
  · simp [step, cam_context_complete, flushQueues, removeById]
  · simp [step, cam_context_complete, flushQueues, removeById]

/-- Witness for C9 at the concrete Activated context holding request 7 in
active. -/
theorem no_double_free_after_stop_witness :
    (step activeCtx CamOp.stop_dev).err = none ∧
    (step activeCtx CamOp.stop_dev).ctx.state = CAM_CTX_READY ∧
    (⟨7, 0⟩ : cam_ctx_request) ∈ (step activeCtx CamOp.stop_dev).ctx.free_req_list ∧
    (step (step activeCtx CamOp.stop_dev).ctx (CamOp.hw_done 7)).err =
      some CamError.NotFound ∧
    (step (step activeCtx CamOp.stop_dev).ctx (CamOp.hw_done 7)).ctx =
      (step activeCtx CamOp.stop_dev).ctx :=
  no_double_free_after_stop activeCtx ⟨7, 0⟩ rfl rfl

/-- C10: every engine operation is deterministic: two invocations of step on
equal contexts with equal operation payloads produce identical results (same
error, same dev-hook reachability, same final context) — the outcome depends
only on the context and the arguments. -/
theorem handlers_deterministic (c1 c2 : cam_context) (op1 op2 : CamOp)
    (hc : c1 = c2) (ho : op1 = op2) :
    step c1 op1 = step c2 op2 ∧
      (step c1 op1).ctx = (step c2 op2).ctx ∧
      (step c1 op1).err = (step c2 op2).err := by
  rw [hc, ho]
  exact ⟨rfl, rfl, rfl⟩

/-- Witness for C10 at a concrete context and operation. -/
theorem handlers_deterministic_witness :
    step activeCtx CamOp.stop_dev = step activeCtx CamOp.stop_dev ∧
      (step activeCtx CamOp.stop_dev).ctx = (step activeCtx CamOp.stop_dev).ctx ∧
      (step activeCtx CamOp.stop_dev).err = (step activeCtx CamOp.stop_dev).err :=
  handlers_deterministic activeCtx activeCtx CamOp.stop_dev CamOp.stop_dev rfl rfl
